import Mathlib

/-
Verification development for the netflix-wrapped repository.

The repository holds two near-duplicate batch transforms:
  * scripts/process_data.py        (functions prefixed pd_ below, plus
                                    extract_show_name / calculate_stats)
  * scripts/process_netflix_data.py (functions prefixed nf_ below, plus
                                    parse_duration / extract_show_info /
                                    get_time_category / process_netflix_data)

Rows are modelled after the dataframe columns each script derives before the
aggregation steps (year, calendar date as an ordinal day number, hour of day,
month name, weekday name, raw duration string, supplemental-video-type cell).
Calendar glue (pd.to_datetime, .dt accessors) is modelled by those fields.
Serialization, file discovery and printing are not modelled; neither are the
top-N show list, device simplification and fun-fact strings, which no claim
touches.
-/

/-! ### Python string helpers (str.strip, int(), str.split(":")) -/

/-- Whitespace as Python's str.strip and the regex class \s treat ASCII. -/
def pySpace (c : Char) : Bool :=
  c = ' ' || c = '\t' || c = '\n' || c = '\r' || c = '\x0b' || c = '\x0c'

/-- Python str.strip(): drop whitespace from both ends. -/
def stripPy (l : List Char) : List Char :=
  ((l.dropWhile pySpace).reverse.dropWhile pySpace).reverse

def digitVal (c : Char) : Nat := c.toNat - 48

/-- Decimal value of a digit string. -/
def decimalVal (l : List Char) : Nat :=
  l.foldl (fun n c => n * 10 + digitVal c) 0

/-- Digit part of Python int(): after the first digit, digits may be separated
by single underscores; anything else fails. `acc` carries digits read so far. -/
def digitsLoop (acc : Nat) : List Char → Option Nat
  | [] => some acc
  | c :: rest =>
    if c = '_' then
      match rest with
      | c2 :: rest' => if c2.isDigit then digitsLoop (acc * 10 + digitVal c2) rest' else none
      | [] => none
    else if c.isDigit then digitsLoop (acc * 10 + digitVal c) rest else none

/-- Python int(str): optional surrounding whitespace, optional sign, then a
digit sequence (single underscores allowed between digits). `none` models the
ValueError Python raises for anything else. -/
def pyIntL (l : List Char) : Option Int :=
  match stripPy l with
  | [] => none
  | c :: rest =>
    if c = '-' then
      match rest with
      | c2 :: _ => if c2.isDigit then (digitsLoop 0 rest).map (fun n => -(n : Int)) else none
      | [] => none
    else if c = '+' then
      match rest with
      | c2 :: _ => if c2.isDigit then (digitsLoop 0 rest).map (fun n => (n : Int)) else none
      | [] => none
    else if c.isDigit then (digitsLoop 0 (c :: rest)).map (fun n => (n : Int)) else none

/-- Python "x".split(":"): split at every colon, keeping empty pieces. -/
def splitColon : List Char → List (List Char)
  | [] => [[]]
  | c :: rest =>
    match splitColon rest with
    | [] => [[]]
    | h :: t => if c = ':' then [] :: h :: t else (c :: h) :: t

/-- parse_duration from process_netflix_data.py: HH:MM:SS (or MM:SS) to total
seconds; a missing cell (pd.isna, modelled as `none`), an empty string, a
wrong piece count, or any piece int() rejects gives 0. -/
def parse_duration (dur : Option String) : Int :=
  match dur with
  | none => 0
  | some s =>
    if s = "" then 0
    else
      match splitColon s.data with
      | [a, b, c] =>
        match pyIntL a, pyIntL b, pyIntL c with
        | some h, some m, some sec => h * 3600 + m * 60 + sec
        | _, _, _ => 0
      | [a, b] =>
        match pyIntL a, pyIntL b with
        | some m, some sec => m * 60 + sec
        | _, _ => 0
      | _ => 0

/-! ### Title normalization (extract_show_info, extract_show_name) -/

/-- Result record of extract_show_info (the Python dict with keys
show / season / episode / is_episode; `show` is a Lean keyword, so the
field is named show_name). -/
structure ShowInfo where
  show_name : String
  season : Option Nat
  episode : Option Nat
  is_episode : Bool
deriving DecidableEq, Repr

/-- Where Python's `$` (no MULTILINE) succeeds: at the end of the string or
just before one final newline. -/
def dollarOk (l : List Char) : Bool :=
  l = [] || l = ['\n']

/-- The optional group `\(Episode\s*(\d+)\)` of season_ep_pattern matched at
this position and running to `$`: literally "(Episode", then whitespace, then
at least one digit, then ")", then `$`. -/
def epExact (l : List Char) : Option Nat :=
  if l.take 8 = "(Episode".data then
    let r := (l.drop 8).dropWhile pySpace
    let ds := r.takeWhile Char.isDigit
    match r.dropWhile Char.isDigit with
    | ')' :: rem => if ds ≠ [] && dollarOk rem then some (decimalVal ds) else none
    | _ => none
  else none

/-- The tail `.*?(?:\(Episode\s*(\d+)\))?$` of season_ep_pattern: the lazy
`.*?` consumes non-newline characters one at a time, at each position trying
the episode group first; `some` is the captured episode number. -/
def findEp : List Char → Option Nat
  | [] => none
  | c :: rest =>
    match epExact (c :: rest) with
    | some n => some n
    | none => if c = '\n' then none else findEp rest

/-- Matches `\s*Season\s*(\d+).*?(?:\(Episode\s*(\d+)\))?$` against the text
after the colon chosen for the lazy group `(.+?)`: whitespace, the literal
"Season", whitespace, a maximal digit run (the season number), then either a
captured trailing episode group or a remainder `.*?` can cross to `$`. -/
def matchSeasonTail (rest : List Char) : Option (Nat × Option Nat) :=
  let r1 := rest.dropWhile pySpace
  if r1.take 6 = "Season".data then
    let r2 := (r1.drop 6).dropWhile pySpace
    let ds := r2.takeWhile Char.isDigit
    if ds = [] then none
    else
      let tail := r2.dropWhile Char.isDigit
      match findEp tail with
      | some ep => some (decimalVal ds, some ep)
      | none =>
        if dollarOk (tail.dropWhile (fun c => c ≠ '\n')) then some (decimalVal ds, none)
        else none
  else none

/-- re.match of season_ep_pattern `^(.+?):\s*Season\s*(\d+).*?(?:\(Episode\s*(\d+)\))?$`:
the lazy `(.+?)` tries ever longer non-empty newline-free prefixes, so the
first colon whose tail matches wins; `pre` accumulates the prefix reversed. -/
def seasonEpSearch (pre rem : List Char) : Option (List Char × Nat × Option Nat) :=
  match rem with
  | [] => none
  | c :: rest =>
    if c = '\n' then none
    else if c = ':' && pre ≠ [] then
      match matchSeasonTail rest with
      | some (sn, ep) => some (pre.reverse, sn, ep)
      | none => seasonEpSearch (c :: pre) rest
    else seasonEpSearch (c :: pre) rest

/-- One alternative of re.sub's pattern `_hook.*|_primary.*|Clip \d+:|Teaser.*:`
tried at the current position, in that order; `some rem` is the text after the
(removed) match. `.*` runs to the end of the line; `Teaser.*:` runs to the
last colon of the line. -/
def tryHook (l : List Char) : Option (List Char) :=
  if l.take 5 = "_hook".data then
    some ((l.drop 5).dropWhile (fun c => c ≠ '\n'))
  else if l.take 8 = "_primary".data then
    some ((l.drop 8).dropWhile (fun c => c ≠ '\n'))
  else if l.take 5 = "Clip ".data then
    let ds := (l.drop 5).takeWhile Char.isDigit
    match (l.drop 5).dropWhile Char.isDigit with
    | ':' :: rem => if ds ≠ [] then some rem else none
    | _ => none
  else if l.take 6 = "Teaser".data then
    let line := (l.drop 6).takeWhile (fun c => c ≠ '\n')
    let after := (l.drop 6).dropWhile (fun c => c ≠ '\n')
    if ':' ∈ line then
      some ((line.reverse.takeWhile (fun c => c ≠ ':')).reverse ++ after)
    else none
  else none

/-- re.sub scanning left to right, each match replaced by the empty string;
fuel is an upper bound on the scanned length (every step consumes at least
one character). -/
def subScan : Nat → List Char → List Char
  | 0, l => l
  | _ + 1, [] => []
  | fuel + 1, c :: rest =>
    match tryHook (c :: rest) with
    | some rem => subScan fuel rem
    | none => c :: subScan fuel rest

/-- re.sub(r'_hook.*|_primary.*|Clip \d+:|Teaser.*:', '', title). -/
def reSub (l : List Char) : List Char := subScan l.length l

/-- Python substring test `needle in hay`. -/
def strContains (needle hay : String) : Bool := needle.data.IsInfix hay.data

/-- extract_show_info from process_netflix_data.py: first the episode regex;
failing that, a title with neither ": Season" nor ": Episode" is a movie whose
hook/trailer suffixes are stripped; otherwise fall back to the text before the
first colon. -/
def extract_show_info (title : String) : ShowInfo :=
  match seasonEpSearch [] title.data with
  | some (pre, sn, ep) => ⟨⟨stripPy pre⟩, some sn, ep, true⟩
  | none =>
    if !strContains ": Season" title && !strContains ": Episode" title then
      ⟨⟨stripPy (reSub title.data)⟩, none, none, false⟩
    else
      ⟨⟨stripPy (title.data.takeWhile (fun c => c ≠ ':'))⟩, none, none, false⟩

/-- extract_show_name from process_data.py: "Unknown" for a missing title
(pd.isna), else the text before the first colon, stripped. -/
def extract_show_name (title : Option String) : String :=
  match title with
  | none => "Unknown"
  | some t => ⟨stripPy (t.data.takeWhile (fun c => c ≠ ':'))⟩

/-- The IsEpisode column of process_data.py:
df['Title'].str.contains(':', regex=False); NaN titles give a missing value. -/
def pd_is_episode (title : Option String) : Option Bool :=
  title.map (fun t => ':' ∈ t.data)

/-! ### Canonical keys, grouping, first-arg-max (pandas idxmax / Python max) -/

def month_order : List String :=
  ["January", "February", "March", "April", "May", "June",
   "July", "August", "September", "October", "November", "December"]

def dow_order : List String :=
  ["Monday", "Tuesday", "Wednesday", "Thursday", "Friday", "Saturday", "Sunday"]

def time_order : List String :=
  ["Morning (6am-12pm)", "Afternoon (12pm-6pm)", "Evening (6pm-10pm)", "Night Owl (10pm-6am)"]

/-- get_time_category from process_netflix_data.py. -/
def get_time_category (hour : Nat) : String :=
  if 6 ≤ hour ∧ hour < 12 then "Morning (6am-12pm)"
  else if 12 ≤ hour ∧ hour < 18 then "Afternoon (12pm-6pm)"
  else if 18 ≤ hour ∧ hour < 22 then "Evening (6pm-10pm)"
  else "Night Owl (10pm-6am)"

/-- df.groupby(col).size() / value_counts(): one (key, occurrence count) pair
per distinct value of the column. -/
def groupCounts (vals : List String) : List (String × Nat) :=
  vals.dedup.map (fun v => (v, vals.count v))

/-- dict.get(key, 0) / Series.get(key, 0) on an association list. -/
def lookup0 (k : String) (l : List (String × Nat)) : Nat :=
  (l.lookup k).getD 0

/-- sum(d.values()). -/
def sumVals (l : List (String × Nat)) : Nat := (l.map (fun kv => kv.2)).sum

/-- Fold of Python's max(d, key=d.get) / pandas idxmax: the running best is
replaced only by a strictly greater value, so the first key attaining the
maximum wins. -/
def firstMaxGo (best : String × Nat) : List (String × Nat) → String × Nat
  | [] => best
  | x :: rest => firstMaxGo (if best.2 < x.2 then x else best) rest

/-- max(d, key=d.get) over an association list in insertion order (pandas
idxmax behaves the same way on a Series: first occurrence of the maximum). -/
def firstMaxKey : List (String × Nat) → String
  | [] => ""
  | x :: rest => (firstMaxGo x rest).1

/-- Maximum of the values of an association list (0 when empty). -/
def maxValOf (l : List (String × Nat)) : Nat :=
  (l.map (fun kv => kv.2)).foldr max 0

/-! ### Streak detection (shared loop of both scripts) -/

/-- Loop body of the streak computation: for each further date, a gap of
exactly one day extends the current streak and updates the maximum, any other
gap resets the current streak to 1. -/
def streakLoop (prev : Int) (cur maxS : Nat) : List Int → Nat
  | [] => maxS
  | d :: rest =>
    if d - prev = 1 then streakLoop d (cur + 1) (max maxS (cur + 1)) rest
    else streakLoop d 1 maxS rest

/-- longest_streak of both scripts: max_streak = current_streak = 1, then walk
the sorted unique dates (dates are modelled as ordinal day numbers, so
(b - a).days becomes b - a). -/
def longest_streak (dates : List Int) : Nat :=
  match dates with
  | [] => 1
  | d :: rest => streakLoop d 1 1 rest

/-- sorted(df['Date'].unique()): distinct dates in ascending order. -/
def sortedUnique (ds : List Int) : List Int :=
  ds.dedup.insertionSort (fun a b => a ≤ b)

/-- Length of the chain d+1, d+2, ... present at the head of the list;
specification-side helper for the streak proof. -/
def contRun (p : Int) : List Int → Nat
  | [] => 0
  | d :: rest => if d - p = 1 then 1 + contRun d rest else 0

/-- Drop the initial chain counted by contRun. -/
def dropChain (p : Int) : List Int → List Int
  | [] => []
  | d :: rest => if d - p = 1 then dropChain d rest else d :: rest

/-- Longest run of consecutive dates over all suffixes (0 for the empty list). -/
def bestRun : List Int → Nat
  | [] => 0
  | d :: rest => max (1 + contRun d rest) (bestRun rest)

/-- Modelled from the spec: a run of n consecutive calendar dates starting at
d, each present among the watch dates. -/
def consecutiveRun (dates : List Int) (d : Int) (n : Nat) : Prop :=
  ∀ j : Nat, j < n → (d + j) ∈ dates

/-! ### Binge detection -/

/-- df.groupby([Date, Show]).size(): one ((date, show), size) entry per
distinct (date, show) pair. -/
def groupPairs (ps : List (Int × String)) : List ((Int × String) × Nat) :=
  ps.dedup.map (fun p => (p, ps.count p))

/-! ### process_netflix_data.py: rows, filters, aggregation -/

/-- A ViewingActivity.csv row after the datetime accessors of
process_netflix_data.py: Start Time gives year/date/hour/dow/month (the date
as an ordinal day number), Duration is the raw string (none models NaN), and
Supplemental Video Type keeps its raw cell (none models NaN). -/
structure NfRow where
  title : String
  year : Int
  date : Int
  hour : Nat
  dow : String
  month : String
  durationStr : Option String
  supplemental : Option String
deriving DecidableEq, Repr

/-- The Show column: extract_show_info(title)['show']. -/
def nfShow (r : NfRow) : String := (extract_show_info r.title).show_name

/-- The Is_Episode column: extract_show_info(title)['is_episode']. -/
def nfIsEp (r : NfRow) : Bool := (extract_show_info r.title).is_episode

/-- Year-2025 and positive-duration filters of process_netflix_data.py. -/
def nf_df_filtered (rows : List NfRow) : List NfRow :=
  (rows.filter (fun r => decide (r.year = 2025))).filter
    (fun r => decide (0 < parse_duration r.durationStr))

/-- df_meaningful: keep views of at least 60 seconds. -/
def nf_df_meaningful (rows : List NfRow) : List NfRow :=
  (nf_df_filtered rows).filter (fun r => decide (60 ≤ parse_duration r.durationStr))

/-- df_main: drop supplemental content (Supplemental Video Type NaN or ''). -/
def nf_df_main (rows : List NfRow) : List NfRow :=
  (nf_df_meaningful rows).filter
    (fun r => decide (r.supplemental = none ∨ r.supplemental = some ""))

/-- Monthly breakdown: groupby('Month').size() read through get(m, 0) for each
canonical month name. -/
def nf_monthly_breakdown (df : List NfRow) : List (String × Nat) :=
  month_order.map (fun m => (m, lookup0 m (groupCounts (df.map (fun r => r.month)))))

/-- Day-of-week breakdown over the canonical weekday names. -/
def nf_day_of_week (df : List NfRow) : List (String × Nat) :=
  dow_order.map (fun d => (d, lookup0 d (groupCounts (df.map (fun r => r.dow)))))

/-- Time-of-day breakdown: groupby('TimeCategory').size() read through
get(cat, 0) for the four buckets, in the order the source dict lists them. -/
def nf_time_categories (df : List NfRow) : List (String × Nat) :=
  let tc := groupCounts (df.map (fun r => get_time_category r.hour))
  [("Morning (6am-12pm)", lookup0 "Morning (6am-12pm)" tc),
   ("Afternoon (12pm-6pm)", lookup0 "Afternoon (12pm-6pm)" tc),
   ("Evening (6pm-10pm)", lookup0 "Evening (6pm-10pm)" tc),
   ("Night Owl (10pm-6am)", lookup0 "Night Owl (10pm-6am)" tc)]

def nf_peak_month (df : List NfRow) : String := firstMaxKey (nf_monthly_breakdown df)

def nf_favorite_day (df : List NfRow) : String := firstMaxKey (nf_day_of_week df)

def nf_peak_time (df : List NfRow) : String := firstMaxKey (nf_time_categories df)

/-- sorted(df_main['Date'].unique()). -/
def nf_active_dates (df : List NfRow) : List Int := sortedUnique (df.map (fun r => r.date))

def nf_active_days (df : List NfRow) : Nat := (nf_active_dates df).length

def nf_longest_streak (df : List NfRow) : Nat := longest_streak (nf_active_dates df)

/-- daily_show_counts: episode rows only, grouped by (Date, Show). -/
def nf_daily_show_counts (df : List NfRow) : List ((Int × String) × Nat) :=
  groupPairs ((df.filter nfIsEp).map (fun r => (r.date, nfShow r)))

/-- binge_sessions: (daily_show_counts >= 4).sum(). -/
def nf_binge_sessions (df : List NfRow) : Nat :=
  ((nf_daily_show_counts df).filter (fun g => decide (4 ≤ g.2))).length

/-- biggest_binge: daily_show_counts.max() over all episode groups when any
exist, else 0 (the threshold only blanks the show name, not the size). -/
def nf_biggest_binge (df : List NfRow) : Nat :=
  if nf_daily_show_counts df = [] then 0
  else ((nf_daily_show_counts df).map (fun g => g.2)).foldr max 0

/-- The stats dict of process_netflix_data.py (top_shows, device and fun-fact
fields are serialization glue no claim touches and are not modelled; the
round(…, 1) display rounding of estimated_hours is likewise not modelled). -/
structure NfStats where
  year : Int
  total_titles_watched : Nat
  unique_shows : Nat
  estimated_hours : ℚ
  peak_month : String
  peak_month_count : Nat
  favorite_day : String
  favorite_day_count : Nat
  longest_streak : Nat
  binge_sessions : Nat
  biggest_binge : Nat
  active_days : Nat
  peak_time : String
  monthly_breakdown : List (String × Nat)
  day_of_week : List (String × Nat)
  time_categories : List (String × Nat)
  movies_watched : Nat
  episodes_watched : Nat
  first_watch_date : Int
  last_watch_date : Int
deriving DecidableEq, Repr

/-- night_ratio of determine_personality (process_netflix_data.py): Night Owl
count over total time-category count, with `sum(...) or 1` guarding zero.
Python's float division is modelled by exact rationals. -/
def nf_night_share (stats : NfStats) : ℚ :=
  let night_pct : ℚ := (lookup0 "Night Owl (10pm-6am)" stats.time_categories : Nat)
  let total_time : ℚ :=
    if sumVals stats.time_categories = 0 then 1 else (sumVals stats.time_categories : Nat)
  night_pct / total_time

/-- weekend_ratio: Saturday + Sunday over the weekday total, zero-guarded. -/
def nf_weekend_share (stats : NfStats) : ℚ :=
  let weekend_count : ℚ :=
    ((lookup0 "Saturday" stats.day_of_week + lookup0 "Sunday" stats.day_of_week : Nat) : ℚ)
  let total_dow : ℚ :=
    if sumVals stats.day_of_week = 0 then 1 else (sumVals stats.day_of_week : Nat)
  weekend_count / total_dow

def nf_casual : String × String :=
  ("The Casual Viewer", "You watch on your own terms. No algorithm can define you.")

/-- determine_personality of process_netflix_data.py: each matching rule
appends its (type, description) pair in code order, the default is appended
when none matched, and personalities[0] is returned. -/
def determine_personality_nf (stats : NfStats) : String × String :=
  let ps : List (String × String) := []
  let ps := if 100 < stats.unique_shows then
    ps ++ [("The Plot Twist Addict", "New show? Sign me up. Your watchlist is basically a buffet.")] else ps
  let ps := if 20 < stats.longest_streak ∧ 40 < stats.binge_sessions then
    ps ++ [("The Marathon Runner", "Consistency is your middle name. Rain or shine, you show up for your shows.")] else ps
  let ps := if (1 : ℚ)/2 < nf_night_share stats then
    ps ++ [("The After Hours Explorer", "The world sleeps, you stream. Some stories just hit different at 2am.")] else ps
  let ps := if 50 < stats.binge_sessions then
    ps ++ [("The Serial Chiller", "One episode is never enough. You don't watch shows, you experience them.")] else ps
  let ps := if 150 < stats.movies_watched ∧ 400 < stats.episodes_watched then
    ps ++ [("The Couch Critic", "Movies, series, documentaries - you appreciate it all. A true connoisseur.")] else ps
  let ps := if (2 : ℚ)/5 < nf_weekend_share stats then
    ps ++ [("The Weekend Wanderer", "Saturdays and Sundays are sacred. Your couch knows what's up.")] else ps
  let ps := if 200 < stats.active_days then
    ps ++ [("The Steady Streamer", "You've made streaming a lifestyle. Netflix is basically a roommate at this point.")] else ps
  let ps := if ps = [] then [nf_casual] else ps
  ps.headD nf_casual

/-- Modelled from the spec: the fixed ordered rule list of §4.4, one
(predicate, label, description) triple per personality, in source order. -/
def nf_rules : List ((NfStats → Bool) × String × String) :=
  [(fun s => decide (100 < s.unique_shows),
    "The Plot Twist Addict", "New show? Sign me up. Your watchlist is basically a buffet."),
   (fun s => decide (20 < s.longest_streak ∧ 40 < s.binge_sessions),
    "The Marathon Runner", "Consistency is your middle name. Rain or shine, you show up for your shows."),
   (fun s => decide ((1 : ℚ)/2 < nf_night_share s),
    "The After Hours Explorer", "The world sleeps, you stream. Some stories just hit different at 2am."),
   (fun s => decide (50 < s.binge_sessions),
    "The Serial Chiller", "One episode is never enough. You don't watch shows, you experience them."),
   (fun s => decide (150 < s.movies_watched ∧ 400 < s.episodes_watched),
    "The Couch Critic", "Movies, series, documentaries - you appreciate it all. A true connoisseur."),
   (fun s => decide ((2 : ℚ)/5 < nf_weekend_share s),
    "The Weekend Wanderer", "Saturdays and Sundays are sacred. Your couch knows what's up."),
   (fun s => decide (200 < s.active_days),
    "The Steady Streamer", "You've made streaming a lifestyle. Netflix is basically a roommate at this point.")]

/-- Modelled from the spec: first-match evaluation of an ordered rule list,
with a default when no predicate holds. -/
def firstMatch {σ : Type} (rules : List ((σ → Bool) × String × String))
    (dflt : String × String) (s : σ) : String × String :=
  match rules.find? (fun r => r.1 s) with
  | some r => r.2
  | none => dflt

/-- process_netflix_data (after loading): the 2025/duration/supplemental
filters, the aggregation, and the stats dict. `Except.error` models the
ValueError that min()/max() of the empty active-date sequence raises when the
filters leave no row. -/
def process_netflix_data (rows : List NfRow) : Except String (NfStats × (String × String)) :=
  let df := nf_df_main rows
  match nf_active_dates df with
  | [] => Except.error "min() arg is an empty sequence"
  | d :: ds =>
    let stats : NfStats := {
      year := 2025
      total_titles_watched := df.length
      unique_shows := (df.map nfShow).dedup.length
      estimated_hours := (((df.map (fun r => parse_duration r.durationStr)).sum : Int) : ℚ) / 3600
      peak_month := nf_peak_month df
      peak_month_count := lookup0 (nf_peak_month df) (nf_monthly_breakdown df)
      favorite_day := nf_favorite_day df
      favorite_day_count := lookup0 (nf_favorite_day df) (nf_day_of_week df)
      longest_streak := nf_longest_streak df
      binge_sessions := nf_binge_sessions df
      biggest_binge := nf_biggest_binge df
      active_days := nf_active_days df
      peak_time := nf_peak_time df
      monthly_breakdown := nf_monthly_breakdown df
      day_of_week := nf_day_of_week df
      time_categories := nf_time_categories df
      movies_watched := (df.filter (fun r => !nfIsEp r)).length
      episodes_watched := (df.filter nfIsEp).length
      first_watch_date := ds.foldl min d
      last_watch_date := ds.foldl max d }
    Except.ok (stats, determine_personality_nf stats)

/-! ### process_data.py: rows, calculate_stats -/

/-- A row of process_data.py after load_viewing_data: Title may be missing
(NaN, modelled as none); Year/MonthName/DayOfWeek/Hour and the calendar date
(ordinal day number) come from the parsed Date column. The CSV's duration is
carried but never read by this variant. -/
structure PdRow where
  title : Option String
  year : Int
  month : String
  dow : String
  hour : Nat
  date : Int
  duration_seconds : Int
deriving DecidableEq, Repr

/-- Monthly breakdown: groupby('MonthName').size().reindex(month_order,
fill_value=0).to_dict(). -/
def pd_monthly_breakdown (df : List PdRow) : List (String × Nat) :=
  month_order.map (fun m => (m, lookup0 m (groupCounts (df.map (fun r => r.month)))))

/-- Day-of-week breakdown: value_counts().reindex(dow_order, fill_value=0). -/
def pd_day_of_week (df : List PdRow) : List (String × Nat) :=
  dow_order.map (fun d => (d, lookup0 d (groupCounts (df.map (fun r => r.dow)))))

/-- time_categories of process_data.py: the four hour-range filters, in the
order the source dict lists them. -/
def pd_time_categories (df : List PdRow) : List (String × Nat) :=
  [("Morning (6am-12pm)", (df.filter (fun r => decide (6 ≤ r.hour ∧ r.hour < 12))).length),
   ("Afternoon (12pm-6pm)", (df.filter (fun r => decide (12 ≤ r.hour ∧ r.hour < 18))).length),
   ("Evening (6pm-10pm)", (df.filter (fun r => decide (18 ≤ r.hour ∧ r.hour < 22))).length),
   ("Night Owl (10pm-6am)", (df.filter (fun r => decide (22 ≤ r.hour ∨ r.hour < 6))).length)]

/-- monthly.idxmax(): first month of the reindexed (canonical-order) series
attaining the maximum. -/
def pd_peak_month (df : List PdRow) : String := firstMaxKey (pd_monthly_breakdown df)

def pd_favorite_day (df : List PdRow) : String := firstMaxKey (pd_day_of_week df)

/-- max(time_cats, key=time_cats.get). -/
def pd_peak_time (df : List PdRow) : String := firstMaxKey (pd_time_categories df)

/-- daily_shows: ALL rows of this variant (movies included) grouped by
(date, ShowName). -/
def pd_daily_shows (df : List PdRow) : List ((Int × String) × Nat) :=
  groupPairs (df.map (fun r => (r.date, extract_show_name r.title)))

/-- binges = daily_shows[daily_shows >= 3]. -/
def pd_binges (df : List PdRow) : List ((Int × String) × Nat) :=
  (pd_daily_shows df).filter (fun g => decide (3 ≤ g.2))

def pd_binge_sessions (df : List PdRow) : Nat := (pd_binges df).length

/-- int(binges.max()) if len(binges) > 0 else 0. -/
def pd_biggest_binge (df : List PdRow) : Nat :=
  if pd_binges df = [] then 0 else ((pd_binges df).map (fun g => g.2)).foldr max 0

def pd_active_dates (df : List PdRow) : List Int := sortedUnique (df.map (fun r => r.date))

def pd_active_days (df : List PdRow) : Nat := (pd_active_dates df).length

def pd_longest_streak (df : List PdRow) : Nat := longest_streak (pd_active_dates df)

/-- The stats dict of calculate_stats (hourly breakdown, top-show list and
fun facts are serialization glue no claim touches; round(…, 1) on
estimated_hours is display rounding, kept exact here). -/
structure PdStats where
  total_titles_watched : Nat
  unique_shows : Nat
  estimated_hours : ℚ
  monthly_breakdown : List (String × Nat)
  peak_month : String
  day_of_week : List (String × Nat)
  favorite_day : String
  time_categories : List (String × Nat)
  peak_time : String
  binge_sessions : Nat
  biggest_binge : Nat
  longest_streak : Nat
  active_days : Nat
deriving DecidableEq, Repr

def pd_casual : String × String :=
  ("The Casual Viewer", "You enjoy Netflix at a comfortable pace.")

/-- determine_personality of process_data.py: the default dict is overwritten
by an if/elif chain, equivalently this nested conditional, in source order. -/
def determine_personality_pd (stats : PdStats) : String × String :=
  if 500 < stats.estimated_hours then
    ("The Streaming Champion", "Netflix might as well be your second home. You have seen it ALL.")
  else if 50 < stats.binge_sessions then
    ("The Binge Master", "One more episode? Make that ten. Sleep is optional when the plot thickens.")
  else if strContains "Night" stats.peak_time then
    ("The Night Owl", "The best shows come out at night. Or maybe you just lost track of time again.")
  else if 30 < stats.longest_streak then
    ("The Devoted Streamer", "Rain or shine, you never miss a day. Netflix is part of your daily routine.")
  else if 200 < stats.estimated_hours then
    ("The Enthusiast", "You know what you like and you are not afraid to watch it all.")
  else if strContains "Morning" stats.peak_time then
    ("The Early Bird", "Coffee and Netflix? You start your days right.")
  else pd_casual

/-- Modelled from the spec: the ordered rule list of §4.4 for the
process_data.py variant. -/
def pd_rules : List ((PdStats → Bool) × String × String) :=
  [(fun s => decide (500 < s.estimated_hours),
    "The Streaming Champion", "Netflix might as well be your second home. You have seen it ALL."),
   (fun s => decide (50 < s.binge_sessions),
    "The Binge Master", "One more episode? Make that ten. Sleep is optional when the plot thickens."),
   (fun s => strContains "Night" s.peak_time,
    "The Night Owl", "The best shows come out at night. Or maybe you just lost track of time again."),
   (fun s => decide (30 < s.longest_streak),
    "The Devoted Streamer", "Rain or shine, you never miss a day. Netflix is part of your daily routine."),
   (fun s => decide (200 < s.estimated_hours),
    "The Enthusiast", "You know what you like and you are not afraid to watch it all."),
   (fun s => strContains "Morning" s.peak_time,
    "The Early Bird", "Coffee and Netflix? You start your days right.")]

/-- Result of calculate_stats: either the error dict for an empty year
selection, or the stats dict with the personality entry. -/
inductive PdResult where
  | error : String → PdResult
  | ok : PdStats → String × String → PdResult
deriving DecidableEq, Repr

/-- calculate_stats of process_data.py: optional year filter (`if year:` —
a None or zero year leaves the frame untouched), the empty check, then the
aggregation. -/
def calculate_stats (df0 : List PdRow) (year : Option Int) : PdResult :=
  let df := match year with
    | none => df0
    | some y => if y = 0 then df0 else df0.filter (fun r => decide (r.year = y))
  if df = [] then PdResult.error "No data found for the specified year"
  else
    let stats : PdStats := {
      total_titles_watched := df.length
      unique_shows := (df.map (fun r => extract_show_name r.title)).dedup.length
      estimated_hours := (df.length : ℚ) * 3 / 4
      monthly_breakdown := pd_monthly_breakdown df
      peak_month := pd_peak_month df
      day_of_week := pd_day_of_week df
      favorite_day := pd_favorite_day df
      time_categories := pd_time_categories df
      peak_time := pd_peak_time df
      binge_sessions := pd_binge_sessions df
      biggest_binge := pd_biggest_binge df
      longest_streak := pd_longest_streak df
      active_days := pd_active_days df }
    PdResult.ok stats (determine_personality_pd stats)

/-! ### Lemmas: the streak loop computes the longest consecutive run -/

theorem bestRun_dropChain (d : Int) (rest : List Int) :
    max (1 + contRun d rest) (bestRun (dropChain d rest)) =
      max (1 + contRun d rest) (bestRun rest) := by
  induction rest generalizing d with
  | nil => simp [contRun, dropChain, bestRun]
  | cons e rest' ih =>
    by_cases he : e - d = 1
    · simp only [contRun, dropChain, bestRun, he, if_pos]
      have h := ih e
      omega
    · simp [contRun, dropChain, bestRun, he]

theorem streakLoop_eq (l : List Int) : ∀ (prev : Int) (cur maxS : Nat), 1 ≤ cur → cur ≤ maxS →
    streakLoop prev cur maxS l = max maxS (max (cur + contRun prev l) (bestRun (dropChain prev l))) := by
  induction l with
  | nil =>
    intro prev cur maxS h1 h2
    simp only [streakLoop, contRun, dropChain, bestRun]
    omega
  | cons d rest ih =>
    intro prev cur maxS h1 h2
    by_cases hd : d - prev = 1
    · simp only [streakLoop, contRun, dropChain, hd, if_pos]
      rw [ih d (cur + 1) (max maxS (cur + 1)) (by omega) (by omega)]
      omega
    · simp only [streakLoop, contRun, dropChain, bestRun, hd, if_neg, ite_false]
      rw [ih d 1 maxS (by omega) (by omega)]
      have h3 := bestRun_dropChain d rest
      omega

theorem longest_streak_eq_bestRun (l : List Int) (hne : l ≠ []) :
    longest_streak l = bestRun l := by
  match l with
  | a :: rest =>
    show streakLoop a 1 1 rest = _
    rw [streakLoop_eq rest a 1 1 (le_refl 1) (le_refl 1)]
    have h := bestRun_dropChain a rest
    simp only [bestRun]
    omega

theorem contRun_mem (rest : List Int) : ∀ (a : Int) (j : Nat),
    j ≤ contRun a rest → (a + j) ∈ a :: rest := by
  induction rest with
  | nil =>
    intro a j hj
    simp only [contRun, Nat.le_zero] at hj
    simp [hj]
  | cons b rest' ih =>
    intro a j hj
    by_cases hb : b - a = 1
    · match j with
      | 0 => simp
      | j' + 1 =>
        simp only [contRun, hb, if_pos] at hj
        have hm := ih b j' (by omega)
        have he : (a : Int) + ((j' + 1 : Nat) : Int) = b + (j' : Int) := by push_cast; omega
        rw [he]
        exact List.mem_cons_of_mem a hm
    · simp only [contRun, hb, if_neg, ite_false, Nat.le_zero] at hj
      simp [hj]

theorem bestRun_exists (l : List Int) (hne : l ≠ []) :
    ∃ d, consecutiveRun l d (bestRun l) := by
  induction l with
  | nil => exact absurd rfl hne
  | cons a rest ih =>
    rcases le_or_lt (bestRun rest) (1 + contRun a rest) with hba | hba
    · refine ⟨a, ?_⟩
      intro j hj
      have hbr : bestRun (a :: rest) = 1 + contRun a rest := by
        simp only [bestRun]; omega
      rw [hbr] at hj
      exact contRun_mem rest a j (by omega)
    · have hrne : rest ≠ [] := by
        intro h; subst h; simp [bestRun] at hba
      obtain ⟨d, hd⟩ := ih hrne
      refine ⟨d, ?_⟩
      intro j hj
      have hbr : bestRun (a :: rest) = bestRun rest := by
        simp only [bestRun]; omega
      rw [hbr] at hj
      exact List.mem_cons_of_mem a (hd j hj)

theorem contRun_ge (rest : List Int) : ∀ (a : Int) (n : Nat),
    List.Sorted (· < ·) (a :: rest) → (∀ j : Nat, j < n → ((a + j : Int) ∈ a :: rest)) →
    n ≤ 1 + contRun a rest := by
  induction rest with
  | nil =>
    intro a n _ hrun
    by_contra hc
    push_neg at hc
    have h1 := hrun 1 (by omega)
    simp only [List.mem_singleton, List.mem_cons, List.not_mem_nil, or_false] at h1
    omega
  | cons b rest' ih =>
    intro a n hs hrun
    rcases le_or_lt n 1 with h1 | h1
    · omega
    · obtain ⟨hsa, hsb⟩ := List.sorted_cons.mp hs
      have hb1 : ((a + (1 : Nat) : Int)) ∈ a :: b :: rest' := hrun 1 (by omega)
      have hbmem : (a + 1 : Int) ∈ b :: rest' := by
        rcases List.mem_cons.mp hb1 with h | h
        · exfalso; push_cast at h; omega
        · simpa using h
      have hb : b = a + 1 := by
        rcases List.mem_cons.mp hbmem with h | h
        · omega
        · have h2 := (List.sorted_cons.mp hsb).1 _ h
          have h3 := hsa b (by simp)
          omega
      have hrun' : ∀ j : Nat, j < n - 1 → ((b + j : Int) ∈ b :: rest') := by
        intro j hj
        have hmem := hrun (j + 1) (by omega)
        have heq : (a + ((j + 1 : Nat) : Int)) = b + (j : Int) := by push_cast; omega
        rw [heq] at hmem
        rcases List.mem_cons.mp hmem with h | h
        · exfalso
          have h3 := hsa b (by simp)
          omega
        · exact h
      have hih := ih b (n - 1) hsb hrun'
      have hcr : contRun a (b :: rest') = 1 + contRun b rest' := by
        simp only [contRun, show b - a = 1 by omega, if_pos]
      omega

theorem consecutiveRun_le_bestRun (l : List Int) (hs : List.Sorted (· < ·) l) :
    ∀ (d : Int) (n : Nat), consecutiveRun l d n → n ≤ bestRun l := by
  induction l with
  | nil =>
    intro d n hrun
    match n with
    | 0 => simp [bestRun]
    | n + 1 =>
      have h := hrun 0 (by omega)
      simp at h
  | cons a rest ih =>
    intro d n hrun
    rcases Nat.eq_zero_or_pos n with h0 | hp
    · subst h0; omega
    · have hd : d ∈ a :: rest := by
        have h := hrun 0 hp
        simpa using h
      obtain ⟨hsa, hsr⟩ := List.sorted_cons.mp hs
      by_cases hda : d = a
      · subst hda
        have h := contRun_ge rest d n hs (fun j hj => hrun j hj)
        simp only [bestRun]
        omega
      · have hdr : d ∈ rest := by
          rcases List.mem_cons.mp hd with h | h
          · exact absurd h hda
          · exact h
        have hrun' : consecutiveRun rest d n := by
          intro j hj
          have h := hrun j hj
          rcases List.mem_cons.mp h with h | h
          · exfalso
            have h2 := hsa d hdr
            omega
          · exact h
        have h := ih hsr d n hrun'
        simp only [bestRun]
        omega

/-- Claim C2: for every nonempty sorted list of distinct watch dates (dates as
ordinal day numbers, strictly sorted), longest_streak of both scripts equals
the length of the longest run of consecutive calendar dates: a run of that
length exists among the dates and no longer run does. In particular for
Jan 1, Jan 2, Jan 3, Jan 5 (days 1, 2, 3, 5) the result is 3. An empty date
list never reaches this computation: calculate_stats returns its error dict
first and process_netflix_data raises on the empty date sequence. -/
theorem C2_longest_streak_spec :
    (∀ dates : List Int, dates ≠ [] → List.Sorted (· < ·) dates →
      (∃ d, consecutiveRun dates d (longest_streak dates)) ∧
      (∀ (d : Int) (n : Nat), consecutiveRun dates d n → n ≤ longest_streak dates)) ∧
    longest_streak [1, 2, 3, 5] = 3 := by
  constructor
  · intro dates hne hs
    rw [longest_streak_eq_bestRun dates hne]
    exact ⟨bestRun_exists dates hne, consecutiveRun_le_bestRun dates hs⟩
  · rfl

/-! ### Lemmas: zero-filled breakdown mappings -/

theorem map_pair_fst (ks : List String) (f : String → Nat) :
    (ks.map (fun k => (k, f k))).map Prod.fst = ks := by
  induction ks with
  | nil => rfl
  | cons k ks ih => simp only [List.map_cons, ih]

theorem lookup_map_pair_not_mem (ks : List String) (f : String → Nat) (m : String) :
    m ∉ ks → (ks.map (fun k => (k, f k))).lookup m = none := by
  induction ks with
  | nil => intro _; rfl
  | cons k ks ih =>
    intro hm
    have h1 : m ≠ k := fun h => hm (by simp [h])
    have h2 : m ∉ ks := fun h => hm (List.mem_cons_of_mem _ h)
    simp only [List.map_cons, List.lookup]
    rw [show (m == k) = false from beq_eq_false_iff_ne.mpr h1]
    exact ih h2

theorem lookup0_groupCounts_of_not_mem (vals : List String) (m : String) (hm : m ∉ vals) :
    lookup0 m (groupCounts vals) = 0 := by
  unfold lookup0 groupCounts
  rw [lookup_map_pair_not_mem _ _ _ (fun h => hm (List.mem_dedup.mp h))]
  rfl

theorem get_time_category_eq_morning (h : Nat) :
    get_time_category h = "Morning (6am-12pm)" ↔ (6 ≤ h ∧ h < 12) := by
  unfold get_time_category
  split_ifs with h1 h2 h3
  · exact iff_of_true rfl h1
  · exact iff_of_false (by decide) h1
  · exact iff_of_false (by decide) h1
  · exact iff_of_false (by decide) h1

theorem get_time_category_eq_afternoon (h : Nat) :
    get_time_category h = "Afternoon (12pm-6pm)" ↔ (12 ≤ h ∧ h < 18) := by
  unfold get_time_category
  split_ifs with h1 h2 h3
  · exact iff_of_false (by decide) (by omega)
  · exact iff_of_true rfl h2
  · exact iff_of_false (by decide) (by omega)
  · exact iff_of_false (by decide) (by omega)

theorem get_time_category_eq_evening (h : Nat) :
    get_time_category h = "Evening (6pm-10pm)" ↔ (18 ≤ h ∧ h < 22) := by
  unfold get_time_category
  split_ifs with h1 h2 h3
  · exact iff_of_false (by decide) (by omega)
  · exact iff_of_false (by decide) (by omega)
  · exact iff_of_true rfl h3
  · exact iff_of_false (by decide) (by omega)

theorem get_time_category_eq_night (h : Nat) :
    get_time_category h = "Night Owl (10pm-6am)" ↔ (22 ≤ h ∨ h < 6) := by
  unfold get_time_category
  split_ifs with h1 h2 h3
  · exact iff_of_false (by decide) (by omega)
  · exact iff_of_false (by decide) (by omega)
  · exact iff_of_false (by decide) (by omega)
  · exact iff_of_true rfl (by omega)

/-- Claim C3: for every input dataset (either variant), the monthly, weekday
and time-bucket mappings carry exactly the canonical key lists (12 months, 7
weekdays, 4 buckets, in canonical order), and a canonical key absent from the
data is paired with 0. -/
theorem C3_zero_filled_breakdowns :
    ∀ (dfn : List NfRow) (dfp : List PdRow),
      (nf_monthly_breakdown dfn).map Prod.fst = month_order ∧
      (nf_day_of_week dfn).map Prod.fst = dow_order ∧
      (nf_time_categories dfn).map Prod.fst = time_order ∧
      (pd_monthly_breakdown dfp).map Prod.fst = month_order ∧
      (pd_day_of_week dfp).map Prod.fst = dow_order ∧
      (pd_time_categories dfp).map Prod.fst = time_order ∧
      (∀ m ∈ month_order, m ∉ dfn.map (fun r => r.month) → (m, 0) ∈ nf_monthly_breakdown dfn) ∧
      (∀ d ∈ dow_order, d ∉ dfn.map (fun r => r.dow) → (d, 0) ∈ nf_day_of_week dfn) ∧
      (∀ t ∈ time_order, t ∉ dfn.map (fun r => get_time_category r.hour) →
        (t, 0) ∈ nf_time_categories dfn) ∧
      (∀ m ∈ month_order, m ∉ dfp.map (fun r => r.month) → (m, 0) ∈ pd_monthly_breakdown dfp) ∧
      (∀ d ∈ dow_order, d ∉ dfp.map (fun r => r.dow) → (d, 0) ∈ pd_day_of_week dfp) ∧
      (∀ t ∈ time_order, t ∉ dfp.map (fun r => get_time_category r.hour) →
        (t, 0) ∈ pd_time_categories dfp) := by
  intro dfn dfp
  refine ⟨map_pair_fst _ _, map_pair_fst _ _, rfl, map_pair_fst _ _, map_pair_fst _ _, rfl,
    ?_, ?_, ?_, ?_, ?_, ?_⟩
  · intro m hm hdata
    have h0 := lookup0_groupCounts_of_not_mem (dfn.map (fun r => r.month)) m hdata
    exact h0 ▸ List.mem_map_of_mem (fun m => (m, lookup0 m (groupCounts (dfn.map (fun r => r.month))))) hm
  · intro d hd hdata
    have h0 := lookup0_groupCounts_of_not_mem (dfn.map (fun r => r.dow)) d hdata
    exact h0 ▸ List.mem_map_of_mem (fun d => (d, lookup0 d (groupCounts (dfn.map (fun r => r.dow))))) hd
  · intro t ht hdata
    have h0 := lookup0_groupCounts_of_not_mem (dfn.map (fun r => get_time_category r.hour)) t hdata
    simp only [time_order, List.mem_cons, List.not_mem_nil, or_false] at ht
    rcases ht with rfl | rfl | rfl | rfl <;> simp [nf_time_categories, h0]
  · intro m hm hdata
    have h0 := lookup0_groupCounts_of_not_mem (dfp.map (fun r => r.month)) m hdata
    exact h0 ▸ List.mem_map_of_mem (fun m => (m, lookup0 m (groupCounts (dfp.map (fun r => r.month))))) hm
  · intro d hd hdata
    have h0 := lookup0_groupCounts_of_not_mem (dfp.map (fun r => r.dow)) d hdata
    exact h0 ▸ List.mem_map_of_mem (fun d => (d, lookup0 d (groupCounts (dfp.map (fun r => r.dow))))) hd
  · intro t ht hdata
    simp only [time_order, List.mem_cons, List.not_mem_nil, or_false] at ht
    have hnone : ∀ (P : Nat → Prop) [DecidablePred P],
        (∀ h : Nat, get_time_category h = t ↔ P h) →
        (dfp.filter (fun r => decide (P r.hour))).length = 0 := by
      intro P _ hiff
      rw [List.length_eq_zero, List.filter_eq_nil_iff]
      intro r hr hP
      rw [decide_eq_true_eq] at hP
      exact hdata (List.mem_map.mpr ⟨r, hr, (hiff r.hour).mpr hP⟩)
    rcases ht with rfl | rfl | rfl | rfl
    · have h0 := hnone _ (fun h => get_time_category_eq_morning h)
      simp only [Bool.decide_and, Bool.decide_or] at h0
      simp [pd_time_categories, h0]
    · have h0 := hnone _ (fun h => get_time_category_eq_afternoon h)
      simp only [Bool.decide_and, Bool.decide_or] at h0
      simp [pd_time_categories, h0]
    · have h0 := hnone _ (fun h => get_time_category_eq_evening h)
      simp only [Bool.decide_and, Bool.decide_or] at h0
      simp [pd_time_categories, h0]
    · have h0 := hnone _ (fun h => get_time_category_eq_night h)
      simp only [Bool.decide_and, Bool.decide_or] at h0
      simp [pd_time_categories, h0]

/-! ### Lemmas: peak selection is first-key arg-max -/

theorem maxValOf_cons (x : String × Nat) (l : List (String × Nat)) :
    maxValOf (x :: l) = max x.2 (maxValOf l) := rfl

theorem firstMaxGo_of_le (x : String × Nat) (l : List (String × Nat))
    (h : maxValOf l ≤ x.2) : firstMaxGo x l = x := by
  induction l with
  | nil => rfl
  | cons y l ih =>
    rw [maxValOf_cons] at h
    simp only [firstMaxGo]
    rw [if_neg (by omega)]
    exact ih (by omega)

theorem find?_max_eq_firstMaxGo (l : List (String × Nat)) : ∀ (x : String × Nat),
    (x :: l).find? (fun kv => decide (kv.2 = maxValOf (x :: l))) = some (firstMaxGo x l) := by
  induction l with
  | nil =>
    intro x
    rw [List.find?_cons_of_pos _ (by simp [maxValOf])]
    rfl
  | cons y l ih =>
    intro x
    by_cases hxy : x.2 < y.2
    · have hyM : y.2 ≤ maxValOf (y :: l) := by rw [maxValOf_cons]; omega
      have hM : maxValOf (x :: y :: l) = maxValOf (y :: l) := by
        simp only [maxValOf_cons]; omega
      have hfg : firstMaxGo x (y :: l) = firstMaxGo y l := by
        simp only [firstMaxGo, if_pos hxy]
      rw [List.find?_cons_of_neg _ (by simp only [decide_eq_true_eq]; omega)]
      calc List.find? (fun kv => decide (kv.2 = maxValOf (x :: y :: l))) (y :: l)
          = List.find? (fun kv => decide (kv.2 = maxValOf (y :: l))) (y :: l) := by rw [hM]
        _ = some (firstMaxGo y l) := ih y
        _ = some (firstMaxGo x (y :: l)) := by rw [hfg]
    · have hM : maxValOf (x :: y :: l) = maxValOf (x :: l) := by
        simp only [maxValOf_cons]; omega
      have hfg : firstMaxGo x (y :: l) = firstMaxGo x l := by
        simp only [firstMaxGo, if_neg hxy]
      by_cases hx : x.2 = maxValOf (x :: y :: l)
      · rw [List.find?_cons_of_pos _ (by simp only [decide_eq_true_eq]; omega)]
        have hle : maxValOf (y :: l) ≤ x.2 := by
          rw [hM, maxValOf_cons] at hx
          rw [maxValOf_cons]
          omega
        rw [hfg, firstMaxGo_of_le x l (by rw [maxValOf_cons] at hle; omega)]
      · have hxlt : x.2 < maxValOf (x :: l) := by
          rw [hM] at hx
          rw [maxValOf_cons] at hx ⊢
          omega
        rw [List.find?_cons_of_neg _ (by simp only [decide_eq_true_eq]; omega)]
        rw [List.find?_cons_of_neg _ (by simp only [decide_eq_true_eq]; rw [hM]; omega)]
        have hihx := ih x
        rw [List.find?_cons_of_neg _ (by simp only [decide_eq_true_eq]; omega)] at hihx
        rw [hfg, ← hihx, hM]

theorem firstMaxKey_find? (mb : List (String × Nat)) (hne : mb ≠ []) :
    (mb.find? (fun kv => decide (kv.2 = maxValOf mb))).map Prod.fst = some (firstMaxKey mb) := by
  match mb with
  | x :: l =>
    rw [find?_max_eq_firstMaxGo]
    rfl

/-- Claim C9: each peak selection (peak month, favorite day, peak time, in
both variants) is the first entry of the zero-filled, canonically ordered
breakdown mapping whose count attains the maximum: find? scans the mapping in
canonical key order, so on a tie the key earlier in canonical order wins. -/
theorem C9_peak_first_argmax :
    ∀ (dfn : List NfRow) (dfp : List PdRow),
      ((nf_monthly_breakdown dfn).find?
        (fun kv => decide (kv.2 = maxValOf (nf_monthly_breakdown dfn)))).map Prod.fst
        = some (nf_peak_month dfn) ∧
      ((nf_day_of_week dfn).find?
        (fun kv => decide (kv.2 = maxValOf (nf_day_of_week dfn)))).map Prod.fst
        = some (nf_favorite_day dfn) ∧
      ((nf_time_categories dfn).find?
        (fun kv => decide (kv.2 = maxValOf (nf_time_categories dfn)))).map Prod.fst
        = some (nf_peak_time dfn) ∧
      ((pd_monthly_breakdown dfp).find?
        (fun kv => decide (kv.2 = maxValOf (pd_monthly_breakdown dfp)))).map Prod.fst
        = some (pd_peak_month dfp) ∧
      ((pd_day_of_week dfp).find?
        (fun kv => decide (kv.2 = maxValOf (pd_day_of_week dfp)))).map Prod.fst
        = some (pd_favorite_day dfp) ∧
      ((pd_time_categories dfp).find?
        (fun kv => decide (kv.2 = maxValOf (pd_time_categories dfp)))).map Prod.fst
        = some (pd_peak_time dfp) := by
  intro dfn dfp
  refine ⟨?_, ?_, ?_, ?_, ?_, ?_⟩
  · exact firstMaxKey_find? _ (by simp [nf_monthly_breakdown, month_order])
  · exact firstMaxKey_find? _ (by simp [nf_day_of_week, dow_order])
  · exact firstMaxKey_find? _ (by simp [nf_time_categories])
  · exact firstMaxKey_find? _ (by simp [pd_monthly_breakdown, month_order])
  · exact firstMaxKey_find? _ (by simp [pd_day_of_week, dow_order])
  · exact firstMaxKey_find? _ (by simp [pd_time_categories])

/-! ### Lemmas: personality selection -/

theorem firstMatch_eq_default_iff {σ : Type} (dflt : String × String) (s : σ) :
    ∀ (rules : List ((σ → Bool) × String × String)), (∀ r ∈ rules, r.2 ≠ dflt) →
      (firstMatch rules dflt s = dflt ↔ ∀ r ∈ rules, r.1 s = false) := by
  intro rules
  induction rules with
  | nil => intro _; simp [firstMatch]
  | cons r rs ih =>
    intro hd
    by_cases hb : r.1 s = true
    · have h1 : firstMatch (r :: rs) dflt s = r.2 := by
        unfold firstMatch
        simp only [List.find?, hb]
      rw [h1]
      constructor
      · intro h; exact absurd h (hd r (by simp))
      · intro hall
        have h := hall r (by simp)
        rw [hb] at h
        cases h
    · have hb' : r.1 s = false := by revert hb; cases r.1 s <;> simp
      have h1 : firstMatch (r :: rs) dflt s = firstMatch rs dflt s := by
        unfold firstMatch
        simp only [List.find?, hb']
      rw [h1, ih (fun q hq => hd q (List.mem_cons_of_mem _ hq))]
      simp [hb']

theorem determine_personality_pd_firstMatch (sp : PdStats) :
    determine_personality_pd sp = firstMatch pd_rules pd_casual sp := by
  unfold determine_personality_pd firstMatch pd_rules pd_casual
  split_ifs with h1 h2 h3 h4 h5 h6 <;> simp [*, List.find?]

set_option maxHeartbeats 1000000 in
theorem determine_personality_nf_firstMatch (sn : NfStats) :
    determine_personality_nf sn = firstMatch nf_rules nf_casual sn := by
  simp only [determine_personality_nf, firstMatch, nf_rules, nf_casual]
  by_cases h1 : 100 < sn.unique_shows <;>
  by_cases h2 : 20 < sn.longest_streak ∧ 40 < sn.binge_sessions <;>
  by_cases h3 : (2 : ℚ)⁻¹ < nf_night_share sn <;>
  by_cases h4 : 50 < sn.binge_sessions <;>
  by_cases h5 : 150 < sn.movies_watched ∧ 400 < sn.episodes_watched <;>
  by_cases h6 : (2 : ℚ)/5 < nf_weekend_share sn <;>
  by_cases h7 : 200 < sn.active_days <;>
  simp [*, List.find?]

/-- Claim C5: both determine_personality variants are pure first-match
evaluations of their fixed ordered rule lists over the stats record: the
result is the label/description of the first predicate that holds, the
default Casual Viewer pair is returned exactly when no predicate holds, and a
concrete stats record satisfying both the hours>500 and binges>50 predicates
resolves to The Streaming Champion, the rule listed first. -/
theorem C5_personality_first_match :
    ∀ (sp : PdStats) (sn : NfStats),
      determine_personality_pd sp = firstMatch pd_rules pd_casual sp ∧
      (determine_personality_pd sp = pd_casual ↔ ∀ r ∈ pd_rules, r.1 sp = false) ∧
      determine_personality_nf sn = firstMatch nf_rules nf_casual sn ∧
      (determine_personality_nf sn = nf_casual ↔ ∀ r ∈ nf_rules, r.1 sn = false) ∧
      determine_personality_pd
        { total_titles_watched := 0, unique_shows := 0, estimated_hours := 600,
          monthly_breakdown := [], peak_month := "", day_of_week := [],
          favorite_day := "", time_categories := [], peak_time := "",
          binge_sessions := 60, biggest_binge := 0, longest_streak := 0,
          active_days := 0 }
        = ("The Streaming Champion",
           "Netflix might as well be your second home. You have seen it ALL.") := by
  intro sp sn
  have hpd := determine_personality_pd_firstMatch sp
  have hnf := determine_personality_nf_firstMatch sn
  refine ⟨hpd, ?_, hnf, ?_, ?_⟩
  · rw [hpd]
    exact firstMatch_eq_default_iff pd_casual sp pd_rules (by decide)
  · rw [hnf]
    exact firstMatch_eq_default_iff nf_casual sn nf_rules (by decide)
  · decide

/-! ### Lemmas: binge grouping -/

theorem filter_map_comm {α β : Type} (f : α → β) (p : β → Bool) (l : List α) :
    (l.map f).filter p = (l.filter (fun a => p (f a))).map f := by
  induction l with
  | nil => rfl
  | cons a l ih =>
    rcases h : p (f a) with _ | _ <;>
      simp [List.filter_cons, h, ih]

theorem filter_eq_singleton {α : Type} (p : α → Bool) (a : α) :
    ∀ (l : List α), l.Nodup → a ∈ l → p a = true →
      (∀ b ∈ l, p b = true → b = a) → l.filter p = [a] := by
  intro l
  induction l with
  | nil => intro _ ha; cases ha
  | cons x l ih =>
    intro hnd ha hpa huniq
    rcases List.mem_cons.mp ha with rfl | hal
    · have hrest : l.filter p = [] := by
        rw [List.filter_eq_nil_iff]
        intro b hb hpb
        have hba := huniq b (List.mem_cons_of_mem _ hb) (by simpa using hpb)
        subst hba
        exact (List.nodup_cons.mp hnd).1 hb
      simp [List.filter_cons, hpa, hrest]
    · have hx : p x = false := by
        rcases hpx : p x with _ | _
        · rfl
        · exact absurd hal ((huniq x (by simp) hpx) ▸ (List.nodup_cons.mp hnd).1)
      rw [List.filter_cons]
      simp only [hx, Bool.false_eq_true, if_false]
      exact ih (List.nodup_cons.mp hnd).2 hal hpa
        (fun b hb hpb => huniq b (List.mem_cons_of_mem _ hb) hpb)

theorem foldr_max_le (vs : List Nat) (n : Nat) (hle : ∀ v ∈ vs, v ≤ n) :
    vs.foldr max 0 ≤ n := by
  induction vs with
  | nil => simp
  | cons v vs ih =>
    have h1 := hle v (by simp)
    have h2 := ih (fun w hw => hle w (List.mem_cons_of_mem _ hw))
    simp only [List.foldr]
    omega

theorem foldr_max_eq (vs : List Nat) (n : Nat) (hmem : n ∈ vs) (hle : ∀ v ∈ vs, v ≤ n) :
    vs.foldr max 0 = n := by
  induction vs with
  | nil => cases hmem
  | cons v vs ih =>
    simp only [List.foldr]
    rcases List.mem_cons.mp hmem with rfl | hmem'
    · have := foldr_max_le vs n (fun w hw => hle w (List.mem_cons_of_mem _ hw))
      omega
    · have h1 := ih hmem' (fun w hw => hle w (List.mem_cons_of_mem _ hw))
      have h2 := hle v (by simp)
      omega

theorem binge_groups_single (l : List (Int × String)) (p0 : Int × String) (n T : Nat)
    (hT : 2 ≤ T) (hn : T ≤ n) (hcount : l.count p0 = n)
    (hothers : ∀ q, q ≠ p0 → l.count q ≤ 1) :
    (groupPairs l).filter (fun g => decide (T ≤ g.2)) = [(p0, n)] ∧
    ((groupPairs l).map (fun g => g.2)).foldr max 0 = n ∧
    groupPairs l ≠ [] := by
  have hp0l : p0 ∈ l := by
    rcases List.count_pos_iff.mp (by omega : 0 < l.count p0) with h
    exact h
  have hp0d : p0 ∈ l.dedup := List.mem_dedup.mpr hp0l
  have hnd : l.dedup.Nodup := List.nodup_dedup l
  have huniq : ∀ q ∈ l.dedup, decide (T ≤ l.count q) = true → q = p0 := by
    intro q hq hTq
    by_contra hne
    have h1 := hothers q hne
    rw [decide_eq_true_eq] at hTq
    omega
  refine ⟨?_, ?_, ?_⟩
  · unfold groupPairs
    rw [filter_map_comm]
    rw [filter_eq_singleton _ p0 l.dedup hnd hp0d (by rw [decide_eq_true_eq]; omega) huniq]
    simp [hcount]
  · have hmm : (groupPairs l).map (fun g => g.2) = l.dedup.map (fun q => l.count q) := by
      unfold groupPairs
      rw [List.map_map]
      rfl
    rw [hmm]
    refine foldr_max_eq _ n (List.mem_map.mpr ⟨p0, hp0d, hcount⟩) ?_
    intro v hv
    rcases List.mem_map.mp hv with ⟨q, hq, rfl⟩
    by_cases hq0 : q = p0
    · subst hq0; omega
    · have := hothers q hq0; omega
  · intro h
    unfold groupPairs at h
    rw [List.map_eq_nil_iff] at h
    rw [h] at hp0d
    cases hp0d

/-- The three nested filters building df_main fused into one pass (filter_filter
stacks the conditions outermost first). -/
theorem nf_df_main_eq_filter (rows : List NfRow) :
    nf_df_main rows = rows.filter (fun r =>
      decide (r.supplemental = none ∨ r.supplemental = some "") &&
        decide (60 ≤ parse_duration r.durationStr) &&
        decide (0 < parse_duration r.durationStr) &&
        decide (r.year = 2025)) := by
  unfold nf_df_main nf_df_meaningful nf_df_filtered
  rw [List.filter_filter, List.filter_filter, List.filter_filter]

theorem nf_episodes_cons_movie (r : NfRow) (rows : List NfRow) (h : nfIsEp r = false) :
    (nf_df_main (r :: rows)).filter nfIsEp = (nf_df_main rows).filter nfIsEp := by
  rw [nf_df_main_eq_filter, nf_df_main_eq_filter, List.filter_cons]
  split
  · rw [List.filter_cons]
    simp only [h, Bool.false_eq_true, if_false]
  · rfl

/-- Claim C1 (amended): binge detection groups filtered records by
(date, show) against the variant's threshold (4 in process_netflix_data.py,
3 in process_data.py). process_netflix_data groups only episode records, so a
movie record never changes its binge_sessions or biggest_binge; process_data
groups all filtered records, movies included. In either variant, when one
(date, show) group of episode records reaches the variant's threshold and no
other (date, show) pair among the grouped records repeats, binge_sessions = 1
and biggest_binge is that group's size; a concrete four-episode day plus one
movie witnesses the netflix variant. -/
theorem C1_binge_detection_amended :
    (∀ (rows : List NfRow) (r : NfRow), nfIsEp r = false →
      nf_binge_sessions (nf_df_main (r :: rows)) = nf_binge_sessions (nf_df_main rows) ∧
      nf_biggest_binge (nf_df_main (r :: rows)) = nf_biggest_binge (nf_df_main rows)) ∧
    (∀ (df : List NfRow) (p0 : Int × String) (n : Nat), 4 ≤ n →
      ((df.filter nfIsEp).map (fun r => (r.date, nfShow r))).count p0 = n →
      (∀ q, q ≠ p0 → ((df.filter nfIsEp).map (fun r => (r.date, nfShow r))).count q ≤ 1) →
      nf_binge_sessions df = 1 ∧ nf_biggest_binge df = n) ∧
    (∀ (df : List PdRow) (p0 : Int × String) (n : Nat), 3 ≤ n →
      (df.map (fun r => (r.date, extract_show_name r.title))).count p0 = n →
      (∀ q, q ≠ p0 → (df.map (fun r => (r.date, extract_show_name r.title))).count q ≤ 1) →
      pd_binge_sessions df = 1 ∧ pd_biggest_binge df = n) ∧
    (nf_binge_sessions (nf_df_main
        [⟨"S: Season 1: A (Episode 1)", 2025, 100, 21, "Monday", "March", some "0:45:00", none⟩,
         ⟨"S: Season 1: B (Episode 2)", 2025, 100, 21, "Monday", "March", some "0:45:00", none⟩,
         ⟨"S: Season 1: C (Episode 3)", 2025, 100, 22, "Monday", "March", some "0:45:00", none⟩,
         ⟨"S: Season 1: D (Episode 4)", 2025, 100, 23, "Monday", "March", some "0:45:00", none⟩,
         ⟨"Inception", 2025, 101, 21, "Tuesday", "March", some "2:00:00", none⟩]) = 1 ∧
     nf_biggest_binge (nf_df_main
        [⟨"S: Season 1: A (Episode 1)", 2025, 100, 21, "Monday", "March", some "0:45:00", none⟩,
         ⟨"S: Season 1: B (Episode 2)", 2025, 100, 21, "Monday", "March", some "0:45:00", none⟩,
         ⟨"S: Season 1: C (Episode 3)", 2025, 100, 22, "Monday", "March", some "0:45:00", none⟩,
         ⟨"S: Season 1: D (Episode 4)", 2025, 100, 23, "Monday", "March", some "0:45:00", none⟩,
         ⟨"Inception", 2025, 101, 21, "Tuesday", "March", some "2:00:00", none⟩]) = 4) := by
  refine ⟨?_, ?_, ?_, by decide⟩
  · intro rows r h
    have he := nf_episodes_cons_movie r rows h
    constructor <;>
      simp only [nf_binge_sessions, nf_biggest_binge, nf_daily_show_counts, he]
  · intro df p0 n hn hc ho
    obtain ⟨h1, h2, h3⟩ := binge_groups_single _ p0 n 4 (by omega) hn hc ho
    constructor
    · simp only [nf_binge_sessions, nf_daily_show_counts]
      rw [h1]
      rfl
    · simp only [nf_biggest_binge, nf_daily_show_counts]
      rw [if_neg h3]
      exact h2
  · intro df p0 n hn hc ho
    obtain ⟨h1, h2, h3⟩ := binge_groups_single _ p0 n 3 (by omega) hn hc ho
    have hb : pd_binges df = [(p0, n)] := by
      simp only [pd_binges, pd_daily_shows]
      exact h1
    constructor
    · simp only [pd_binge_sessions, hb]
      rfl
    · simp only [pd_biggest_binge, hb]
      simp

/-- Claim C1 counterexample: in process_data.py, binge grouping is over all
records, so three same-day records of one movie (a title the variant itself
marks as not an episode) already count as a binge session with
biggest_binge = 3 — contradicting "movies never contribute". -/
theorem C1_movies_contribute_counterexample :
    pd_is_episode (some "The Movie") = some false ∧
    pd_binge_sessions
      [⟨some "The Movie", 2025, "January", "Friday", 10, 50, 3000⟩,
       ⟨some "The Movie", 2025, "January", "Friday", 12, 50, 3000⟩,
       ⟨some "The Movie", 2025, "January", "Friday", 20, 50, 3000⟩] = 1 ∧
    pd_biggest_binge
      [⟨some "The Movie", 2025, "January", "Friday", 10, 50, 3000⟩,
       ⟨some "The Movie", 2025, "January", "Friday", 12, 50, 3000⟩,
       ⟨some "The Movie", 2025, "January", "Friday", 20, 50, 3000⟩] = 3 := by
  decide

/-! ### Lemmas: parse_duration on well-formed and filtered input -/

theorem pySpace_of_isDigit (c : Char) (h : c.isDigit = true) : pySpace c = false := by
  simp only [Char.isDigit, Bool.and_eq_true, decide_eq_true_eq] at h
  rcases h with ⟨h1, h2⟩
  by_contra hx
  rw [Bool.not_eq_false] at hx
  simp only [pySpace, Bool.or_eq_true, decide_eq_true_eq] at hx
  rcases hx with ((((hc | hc) | hc) | hc) | hc) | hc <;> subst hc <;>
    exact absurd h1 (by decide)

theorem stripPy_digits (l : List Char) (hd : ∀ c ∈ l, c.isDigit = true) : stripPy l = l := by
  unfold stripPy
  have h1 : l.dropWhile pySpace = l := by
    cases l with
    | nil => rfl
    | cons c t =>
      rw [List.dropWhile_cons]
      rw [pySpace_of_isDigit c (hd c (by simp))]
      simp
  rw [h1]
  have h2 : l.reverse.dropWhile pySpace = l.reverse := by
    rcases hrev : l.reverse with _ | ⟨c, t⟩
    · rfl
    · have hc : c ∈ l := by
        rw [← List.mem_reverse, hrev]
        simp
      rw [List.dropWhile_cons]
      rw [pySpace_of_isDigit c (hd c hc)]
      simp
  rw [h2, List.reverse_reverse]

theorem digitsLoop_cons_digit (acc : Nat) (c : Char) (l : List Char)
    (hne : c ≠ '_') (hc : c.isDigit = true) :
    digitsLoop acc (c :: l) = digitsLoop (acc * 10 + digitVal c) l := by
  conv_lhs => rw [digitsLoop.eq_def]
  split
  next heq => cases heq
  next c2 rest2 heq =>
    injection heq with h1 h2
    subst h1
    subst h2
    rw [if_neg hne, if_pos hc]

theorem digitsLoop_digits (l : List Char) : ∀ acc : Nat, (∀ c ∈ l, c.isDigit = true) →
    digitsLoop acc l = some (l.foldl (fun n c => n * 10 + digitVal c) acc) := by
  induction l with
  | nil => intro acc _; rfl
  | cons c l ih =>
    intro acc hall
    have hc : c.isDigit = true := hall c (by simp)
    have hne : c ≠ '_' := by
      intro h
      subst h
      exact absurd hc (by decide)
    rw [digitsLoop_cons_digit acc c l hne hc]
    rw [ih (acc * 10 + digitVal c) (fun d hd => hall d (List.mem_cons_of_mem _ hd))]
    rfl

theorem pyIntL_digits (l : List Char) (hne : l ≠ []) (hd : ∀ c ∈ l, c.isDigit = true) :
    pyIntL l = some ((decimalVal l : Nat) : Int) := by
  unfold pyIntL
  rw [stripPy_digits l hd]
  match l, hne with
  | c :: rest, _ =>
    have hc : c.isDigit = true := hd c (by simp)
    have hm : c ≠ '-' := by intro h; subst h; exact absurd hc (by decide)
    have hp : c ≠ '+' := by intro h; subst h; exact absurd hc (by decide)
    simp only [if_neg hm, if_neg hp, hc, if_true, if_pos]
    rw [digitsLoop_digits (c :: rest) 0 hd]
    rfl

theorem splitColon_ne_nil (l : List Char) : splitColon l ≠ [] := by
  cases l with
  | nil => decide
  | cons c rest =>
    simp only [splitColon]
    rcases h : splitColon rest with _ | ⟨h1, t⟩
    · exact (by decide : ([[]] : List (List Char)) ≠ [])
    · split
      · simp
      · split <;> simp

theorem splitColon_no_colon (l : List Char) (h : ':' ∉ l) : splitColon l = [l] := by
  induction l with
  | nil => rfl
  | cons c t ih =>
    simp only [splitColon]
    rw [ih (fun hm => h (List.mem_cons_of_mem _ hm))]
    have hc : c ≠ ':' := fun hc => h (by simp [hc])
    simp [hc]

theorem splitColon_append (a rest : List Char) (ha : ':' ∉ a) :
    splitColon (a ++ ':' :: rest) = a :: splitColon rest := by
  induction a with
  | nil =>
    show splitColon (':' :: rest) = [] :: splitColon rest
    simp only [splitColon]
    rcases h : splitColon rest with _ | ⟨h1, t⟩
    · exact absurd h (splitColon_ne_nil rest)
    · simp
  | cons c a ih =>
    have hc : c ≠ ':' := fun h => ha (by simp [h])
    show splitColon (c :: (a ++ ':' :: rest)) = (c :: a) :: splitColon rest
    simp only [splitColon]
    rw [ih (fun h => ha (List.mem_cons_of_mem _ h))]
    simp [hc]

theorem parse_duration_wellformed (a b c : List Char)
    (ha : a ≠ []) (hb : b ≠ []) (hc : c ≠ [])
    (hda : ∀ ch ∈ a, ch.isDigit = true) (hdb : ∀ ch ∈ b, ch.isDigit = true)
    (hdc : ∀ ch ∈ c, ch.isDigit = true) :
    parse_duration (some ⟨a ++ ':' :: (b ++ ':' :: c)⟩) =
      (decimalVal a : Int) * 3600 + (decimalVal b : Int) * 60 + (decimalVal c : Int) := by
  have hnotdig : (':' : Char).isDigit = false := by decide
  have hca : ':' ∉ a := fun h => by rw [hda ':' h] at hnotdig; cases hnotdig
  have hcb : ':' ∉ b := fun h => by rw [hdb ':' h] at hnotdig; cases hnotdig
  have hcc : ':' ∉ c := fun h => by rw [hdc ':' h] at hnotdig; cases hnotdig
  have hsne : (⟨a ++ ':' :: (b ++ ':' :: c)⟩ : String) ≠ "" := by
    intro h
    have h2 : a ++ ':' :: (b ++ ':' :: c) = ([] : List Char) := congrArg String.data h
    simp at h2
  simp only [parse_duration, if_neg hsne]
  rw [splitColon_append a _ hca, splitColon_append b _ hcb, splitColon_no_colon c hcc]
  show (match pyIntL a, pyIntL b, pyIntL c with
    | some h, some m, some sec => h * 3600 + m * 60 + sec
    | _, _, _ => 0) = _
  rw [pyIntL_digits a ha hda, pyIntL_digits b hb hdb, pyIntL_digits c hc hdc]

theorem nf_df_main_cons_of_fail (r : NfRow) (rows : List NfRow)
    (h : parse_duration r.durationStr < 60 ∨
      ¬(r.supplemental = none ∨ r.supplemental = some "")) :
    nf_df_main (r :: rows) = nf_df_main rows := by
  rw [nf_df_main_eq_filter, nf_df_main_eq_filter, List.filter_cons]
  have hfalse : (decide (r.supplemental = none ∨ r.supplemental = some "") &&
      decide (60 ≤ parse_duration r.durationStr) &&
      decide (0 < parse_duration r.durationStr) &&
      decide (r.year = 2025)) = false := by
    rcases h with h | h
    · have h60 : decide (60 ≤ parse_duration r.durationStr) = false :=
        decide_eq_false (by omega)
      simp [h60]
    · simp [decide_eq_false h]
  rw [hfalse]
  simp

/-- Claim C6 (amended): in process_netflix_data.py, longest_streak,
active_days, binge_sessions and biggest_binge are computed over df_main only,
so a record failing the 60-second minimum or carrying a supplemental video
type never changes them. process_data.py applies no duration or supplemental
filter at all: there a record whose CSV duration is below 60 seconds still
contributes, shown by a concrete pair of records (3000 s and 30 s on
consecutive days) whose 30-second record extends active_days and the streak. -/
theorem C6_filtered_streak_binge_amended :
    (∀ (rows : List NfRow) (r : NfRow),
      parse_duration r.durationStr < 60 ∨
        ¬(r.supplemental = none ∨ r.supplemental = some "") →
      nf_active_days (nf_df_main (r :: rows)) = nf_active_days (nf_df_main rows) ∧
      nf_longest_streak (nf_df_main (r :: rows)) = nf_longest_streak (nf_df_main rows) ∧
      nf_binge_sessions (nf_df_main (r :: rows)) = nf_binge_sessions (nf_df_main rows) ∧
      nf_biggest_binge (nf_df_main (r :: rows)) = nf_biggest_binge (nf_df_main rows)) ∧
    (pd_active_days [⟨some "A", 2025, "January", "Friday", 10, 1, 3000⟩,
                     ⟨some "B", 2025, "January", "Saturday", 10, 2, 30⟩] = 2 ∧
     pd_longest_streak [⟨some "A", 2025, "January", "Friday", 10, 1, 3000⟩,
                        ⟨some "B", 2025, "January", "Saturday", 10, 2, 30⟩] = 2) := by
  constructor
  · intro rows r h
    have he := nf_df_main_cons_of_fail r rows h
    exact ⟨by rw [he], by rw [he], by rw [he], by rw [he]⟩
  · constructor <;> decide

/-- Claim C6 counterexample: calculate_stats of process_data.py never reads
the duration, so the 30-second record (below the claimed 60-second minimum)
does contribute: with it active_days = 2 and longest_streak = 2, without it
both are 1. -/
theorem C6_short_record_contributes_counterexample :
    pd_active_days [⟨some "A", 2025, "January", "Friday", 10, 1, 3000⟩,
                    ⟨some "B", 2025, "January", "Saturday", 10, 2, 30⟩] = 2 ∧
    pd_longest_streak [⟨some "A", 2025, "January", "Friday", 10, 1, 3000⟩,
                       ⟨some "B", 2025, "January", "Saturday", 10, 2, 30⟩] = 2 ∧
    pd_active_days [⟨some "A", 2025, "January", "Friday", 10, 1, 3000⟩] = 1 ∧
    pd_longest_streak [⟨some "A", 2025, "January", "Friday", 10, 1, 3000⟩] = 1 := by
  decide

/-- Claim C8 (amended): parse_duration always returns an integer and never
raises: a missing or empty duration gives 0, digit-only HH:MM:SS strings give
the exact total seconds, malformed piece counts or non-integer pieces give 0,
and every row surviving the df_main filters has a positive parsed duration.
However the pieces are parsed with Python int(), which accepts signed
integers, so a string like "-1:00:00" yields a negative total (see the
counterexample) rather than 0 — such rows are still excluded from df_main by
the positive-duration filter. -/
theorem C8_parse_duration_amended :
    parse_duration none = 0 ∧
    parse_duration (some "") = 0 ∧
    (∀ a b c : List Char, a ≠ [] → b ≠ [] → c ≠ [] →
      (∀ ch ∈ a, ch.isDigit = true) → (∀ ch ∈ b, ch.isDigit = true) →
      (∀ ch ∈ c, ch.isDigit = true) →
      parse_duration (some ⟨a ++ ':' :: (b ++ ':' :: c)⟩) =
        (decimalVal a : Int) * 3600 + (decimalVal b : Int) * 60 + (decimalVal c : Int)) ∧
    (∀ (rows : List NfRow), ∀ r ∈ nf_df_main rows, 0 < parse_duration r.durationStr) ∧
    parse_duration (some "ab:cd:ef") = 0 ∧
    parse_duration (some "1:2:3:4") = 0 ∧
    parse_duration (some "1:02:03") = 3723 := by
  refine ⟨rfl, rfl, parse_duration_wellformed, ?_, by decide, by decide, by decide⟩
  intro rows r hr
  rw [nf_df_main_eq_filter] at hr
  have hp := List.of_mem_filter hr
  simp only [Bool.and_eq_true, decide_eq_true_eq] at hp
  exact hp.1.2

/-- Claim C8 counterexample: "-1:00:00" is a malformed duration the claim says
is coerced to zero with a result ≥ 0; Python's int accepts the signed piece,
so parse_duration returns -3600, which is negative and nonzero. -/
theorem C8_negative_duration_counterexample :
    parse_duration (some "-1:00:00") = -3600 ∧
    ¬(0 ≤ parse_duration (some "-1:00:00")) ∧
    parse_duration (some "-1:00:00") ≠ 0 := by
  decide

/-- Claim C10: when no record survives the year-2025, positive-duration and
supplemental filters, process_netflix_data reaches min()/max() of the empty
active-date sequence and raises (modelled as Except.error) instead of
returning a stats object or None, while calculate_stats of process_data.py
returns its error object for an empty year selection; both are also
evaluated on concrete one-record inputs from the wrong year. -/
theorem C10_empty_after_filter :
    (∀ rows : List NfRow, nf_df_main rows = [] →
      process_netflix_data rows = Except.error "min() arg is an empty sequence") ∧
    (∀ (df : List PdRow) (y : Int), y ≠ 0 →
      df.filter (fun r => decide (r.year = y)) = [] →
      calculate_stats df (some y) = PdResult.error "No data found for the specified year") ∧
    process_netflix_data [⟨"Inception", 2024, 50, 10, "Monday", "March", some "1:00:00", none⟩]
      = Except.error "min() arg is an empty sequence" ∧
    calculate_stats [⟨some "Inception", 2024, "March", "Monday", 10, 50, 3600⟩] (some 2025)
      = PdResult.error "No data found for the specified year" := by
  refine ⟨?_, ?_, by rfl, by rfl⟩
  · intro rows h
    simp only [process_netflix_data, h]
    rfl
  · intro df y hy h
    simp only [calculate_stats, if_neg hy, h]
    rfl

/-! ### Lemmas: show-name emptiness -/

theorem stripPy_eq_nil_iff (l : List Char) :
    stripPy l = [] ↔ ∀ c ∈ l, pySpace c = true := by
  unfold stripPy
  constructor
  · intro h c hc
    rw [List.reverse_eq_nil_iff, List.dropWhile_eq_nil_iff] at h
    have hsplit : c ∈ l.takeWhile pySpace ++ l.dropWhile pySpace := by
      rw [List.takeWhile_append_dropWhile]
      exact hc
    rcases List.mem_append.mp hsplit with hm | hm
    · exact List.mem_takeWhile_imp hm
    · exact h c (List.mem_reverse.mpr hm)
  · intro hall
    have h1 : l.dropWhile pySpace = [] := by
      rw [List.dropWhile_eq_nil_iff]
      intro c hc
      exact hall c hc
    rw [h1]
    rfl

/-- Claim C7 (amended): every input title yields a show_name without an
error: a missing title gives the non-empty "Unknown", and the fallback
show_name (text before the first colon, stripped) is empty exactly when that
pre-colon text is all whitespace — so show_name is non-empty for every title
whose pre-colon text has a non-whitespace character, but titles beginning
with a colon produce an empty show_name in both variants. -/
theorem C7_show_name_amended :
    extract_show_name none = "Unknown" ∧
    ("Unknown" : String) ≠ "" ∧
    (∀ t : String, extract_show_name (some t) = "" ↔
      ∀ c ∈ t.data.takeWhile (fun c => c ≠ ':'), pySpace c = true) ∧
    (extract_show_info ": Season 1: x").show_name = "" := by
  refine ⟨rfl, by decide, ?_, by decide⟩
  intro t
  show (⟨stripPy (t.data.takeWhile (fun c => c ≠ ':'))⟩ : String) = "" ↔ _
  rw [show ("" : String) = ⟨[]⟩ from rfl]
  constructor
  · intro h
    exact (stripPy_eq_nil_iff _).mp (congrArg String.data h)
  · intro h
    exact congrArg String.mk ((stripPy_eq_nil_iff _).mpr h)

/-- Claim C7 counterexample: the title ":Foo" begins with a colon, so the
text before the first colon is empty and extract_show_name returns the empty
string — the claimed invariant "show_name is a non-empty string" fails. -/
theorem C7_empty_show_name_counterexample :
    extract_show_name (some ":Foo") = "" := by
  decide

/-- Claim C4 (amended): "Stranger Things: Season 4: Chapter One (Episode 1)"
normalizes to show "Stranger Things", is_episode, season 4, episode 1, and
"Inception" to a movie named "Inception"; extract_show_info totally returns a
result for every title with is_episode true exactly when the Season-episode
regex matches; but a title containing ": Season" or ": Episode" that fails
the regex falls back to the text before the first colon (not the whole
trimmed string), and the process_data.py variant marks IsEpisode for any
title containing a colon, Season pattern or not. -/
theorem C4_title_normalization_amended :
    extract_show_info "Stranger Things: Season 4: Chapter One (Episode 1)"
      = ⟨"Stranger Things", some 4, some 1, true⟩ ∧
    extract_show_info "Inception" = ⟨"Inception", none, none, false⟩ ∧
    (∀ t : String, (extract_show_info t).is_episode = (seasonEpSearch [] t.data).isSome) ∧
    (∀ t : String, seasonEpSearch [] t.data = none →
      (strContains ": Season" t = true ∨ strContains ": Episode" t = true) →
      extract_show_info t =
        ⟨⟨stripPy (t.data.takeWhile (fun c => c ≠ ':'))⟩, none, none, false⟩) ∧
    pd_is_episode (some "Inception: Part 2") = some true := by
  refine ⟨by decide, by decide, ?_, ?_, by decide⟩
  · intro t
    unfold extract_show_info
    rcases h : seasonEpSearch [] t.data with _ | ⟨pre, sn, ep⟩
    · split_ifs <;> rfl
    · rfl
  · intro t h hcase
    unfold extract_show_info
    rw [h]
    rcases hcase with hc | hc <;> simp [hc]

/-- Claim C4 counterexample: for the title ": Season 1: x" (which contains
": Season" but fails the episode regex) the fallback show_name is the empty
pre-colon text, not the whole trimmed string; and process_data.py marks
"Inception: Part 2" as an episode although the Season pattern does not match
it. -/
theorem C4_fallback_counterexample :
    (extract_show_info ": Season 1: x").show_name = "" ∧
    (extract_show_info ": Season 1: x").show_name ≠
      ⟨stripPy (": Season 1: x" : String).data⟩ ∧
    pd_is_episode (some "Inception: Part 2") = some true ∧
    seasonEpSearch [] ("Inception: Part 2" : String).data = none := by
  decide
